import Mathlib

/-!
# Verification of the face-alignment core of `utils/phase_1.py`

A shallow embedding of the geometry and orchestration code of the
FaceRecognitionPipeline repository (`src/utils/phase_1.py`), together with
theorems settling the specification's claims about it.

Modelling conventions:
* Python `int` is `Int`; `numpy` float values flowing through the geometry
  (normalized detection coordinates) are modelled as exact rationals `ℚ`;
  Python's `int(x)` truncation toward zero on a quotient is `Int.tdiv`.
* Images (`np.ndarray` of shape `(height, width, channels)`, dtype uint8) are
  a structure with the three extents and a total pixel-lookup function; pixel
  values outside the official extents are irrelevant junk, so every pixel-level
  statement restricts its indices to the extents.
* External collaborators (`cv2.resize` pixel contents, the `cv2.warpAffine`
  rotation sampling including the `atan2`/`degrees`/`getRotationMatrix2D`
  trigonometry feeding it, and the BlazeFace detector) are opaque parameters:
  only their shape contracts (documented by cv2) are fixed by the model.
* Python exceptions are an explicit `Except` error channel: numpy's error on
  an empty `argmax` (the spec's `EmptyInputError`), `ValueError` from `int()`
  on a malformed string, `TypeError` from arithmetic on `None`, `IndexError`
  from sequence indexing.
-/

/-- The Python error conditions reachable in the modelled code. `emptyInput`
is the spec's `EmptyInputError` (numpy's error for `argmax` of an empty
sequence). -/
inductive PyErr where
  | emptyInput
  | valueError
  | typeError
  | indexError
deriving DecidableEq, Repr

/-- Python `int(q)` for a (rational-modelled) float `q`: truncation toward
zero. -/
def pyint (q : ℚ) : Int := Int.tdiv q.num (q.den : Int)

/-- Model of `str.endswith(c)` for a one-character suffix `c`, the only form the source
uses (`margin.endswith("%")`). -/
def pyEndsWith (s : String) (c : Char) : Bool := s.data.getLast? == some c

/-- Strip leading and trailing whitespace (model of the stripping done by
Python `int(str)`). -/
def trimChars (l : List Char) : List Char :=
  ((l.dropWhile Char.isWhitespace).reverse.dropWhile Char.isWhitespace).reverse

/-- Decimal value of a digit list. -/
def digitsToNat (l : List Char) : Nat := l.foldl (fun a c => a * 10 + (c.toNat - 48)) 0

/-- A non-empty all-digit group. -/
def isDigits (l : List Char) : Bool := !l.isEmpty && l.all Char.isDigit

/-- Unsigned decimal literal in Python `int(str)` syntax: digit groups with
single underscores strictly between digits. -/
def parseUnsigned (l : List Char) : Option Nat :=
  if (l.splitOn '_').all isDigits then some (digitsToNat (l.filter (fun c => c != '_'))) else none

/-- Model of Python `int(str)`: optional surrounding whitespace, optional
sign, ASCII decimal digits with single underscores allowed between digits.
`none` models the `ValueError` raise. -/
def pyIntParse (s : String) : Option Int :=
  match trimChars s.data with
  | '+' :: rest => (parseUnsigned rest).map (fun n => (n : Int))
  | '-' :: rest => (parseUnsigned rest).map (fun n => -(n : Int))
  | l => (parseUnsigned l).map (fun n => (n : Int))

/-- A `(height, width, channels)` uint8 numpy image. `data y x c` is the
pixel sample at row `y`, column `x`, channel `c`; only indices below the
three extents are meaningful. -/
structure Image where
  height : Nat
  width : Nat
  channels : Nat
  data : Nat → Nat → Nat → Nat

instance : Inhabited Image := ⟨⟨0, 0, 0, fun _ _ _ => 0⟩⟩

/-- One BlazeFace detection record. The source reads only flat indices 0-7 of
the 17-value layout: `[0..3]` the normalized box `y_min, x_min, y_max, x_max`,
`[4],[5]` the right-eye keypoint `x, y`, `[6],[7]` the left-eye keypoint
`x, y` (indices 8-16, the remaining keypoints and the score, are never read by
the modelled code paths). All values are normalized floats, modelled as `ℚ`. -/
structure Detection where
  ymin : ℚ
  xmin : ℚ
  ymax : ℚ
  xmax : ℚ
  rightEyeX : ℚ
  rightEyeY : ℚ
  leftEyeX : ℚ
  leftEyeY : ℚ
deriving DecidableEq, Repr

instance : Inhabited Detection := ⟨⟨0, 0, 0, 0, 0, 0, 0, 0⟩⟩

/-- The opaque pixel-producing behaviour of the external cv2 routines.
`resizeData img target` is the pixel content of `cv2.resize(img, target)`;
`warpData img rightEye leftEye dsize` is the pixel content of the
`cv2.warpAffine` rotation about `rightEye` by the eye-line angle (the
`atan2`/`degrees`/`getRotationMatrix2D` trigonometry is a pure function of the
two eye points, so it is absorbed into this parameter). Only the cv2 output
*shape* contracts are fixed: `resize` yields `target.2 × target.1` and
`warpAffine` with `dsize` yields `dsize.2 × dsize.1`, both preserving the
channel count. -/
structure CV2 where
  resizeData : Image → Nat × Nat → Nat → Nat → Nat → Nat
  warpData : Image → Int × Int → Int × Int → Nat × Nat → Nat → Nat → Nat → Nat

/-- Model of `downsize_img(img, target_size)` = `cv2.resize(img, target_size)`, where
`target_size` is `(width, height)` and the result has shape
`(target_size[1], target_size[0], channels)`. -/
def downsize_img (cv : CV2) (img : Image) (target_size : Nat × Nat) : Image :=
  ⟨target_size.2, target_size.1, img.channels, cv.resizeData img target_size⟩

/-- The source's `get_idx_of_biggest_face` applies the area map along axis 1 and takes
`argmax`. `np.argmax` keeps the first index of the maximum, scanning left to
right and replacing only on a strictly greater value. -/
def argmaxGo (xs : List ℚ) (cur : ℚ) (best i : Nat) : Nat :=
  match xs with
  | [] => best
  | x :: rest => if cur < x then argmaxGo rest x i (i + 1) else argmaxGo rest cur best (i + 1)

/-- Model of `np.ndarray.argmax` over a list of scores; numpy raises on an empty
sequence (the spec's `EmptyInputError`). -/
def argmaxFirst (xs : List ℚ) : Except PyErr Nat :=
  match xs with
  | [] => .error .emptyInput
  | x :: rest => .ok (argmaxGo rest x 0 1)

/-- The area `(x[2] - x[0]) * (x[3] - x[1])` computed per detection row. -/
def area (d : Detection) : ℚ := (d.ymax - d.ymin) * (d.xmax - d.xmin)

/-- Model of `get_idx_of_biggest_face(detections)`:
`np.apply_along_axis(lambda x: (x[2] - x[0]) * (x[3] - x[1]), 1, detections).argmax()`. -/
def get_idx_of_biggest_face (detections : List Detection) : Except PyErr Nat :=
  argmaxFirst (detections.map area)

/-- Model of `reset_face_angle(img, detections)`: denormalize the two eye keypoints,
rotate about the right eye by the eye-line angle via `cv2.warpAffine`. The
source binds `w, h = img.shape[:2]` (so `w` is the *height* and `h` the
*width*) and passes `(w, h)` as warpAffine's `(dst_width, dst_height)`, making
the output shape `(h, w, channels)` = `(img.width, img.height, channels)`. -/
def reset_face_angle (cv : CV2) (img : Image) (detections : Detection) : Image :=
  let right_eye : Int × Int :=
    (pyint (detections.rightEyeX * (img.width : ℚ)), pyint (detections.rightEyeY * (img.height : ℚ)))
  let left_eye : Int × Int :=
    (pyint (detections.leftEyeX * (img.width : ℚ)), pyint (detections.leftEyeY * (img.height : ℚ)))
  let w := img.height
  let h := img.width
  ⟨h, w, img.channels, cv.warpData img right_eye left_eye (w, h)⟩

/-- Model of `maintain_ratio(y_min, x_min, y_max, x_max, ratio)`.
Python computes `pad_w = int(h / ratio[1] - w / ratio[0])` with float
division; the exact value of `h / ratio[1] - w / ratio[0]` is
`(h * ratio[0] - w * ratio[1]) / (ratio[0] * ratio[1])`, which is positive in
its branch (that is exactly the branch condition), so `int()` truncation is
`Int.tdiv` there; likewise for `pad_h`. `pad_w // 2` is Python floor
division, which agrees with `Int.tdiv` on the non-negative `pad_w`. -/
def maintain_ratio (y_min x_min y_max x_max : Int) (ratio : Int × Int) :
    Int × Int × Int × Int :=
  let h := y_max - y_min
  let w := x_max - x_min
  if h * ratio.1 > w * ratio.2 then
    let pad_w := Int.tdiv (h * ratio.1 - w * ratio.2) (ratio.1 * ratio.2)
    let pad_h_left := Int.tdiv pad_w 2
    (y_min, x_min - pad_h_left, y_max, x_max + (pad_w - pad_h_left))
  else if h * ratio.1 < w * ratio.2 then
    let pad_h := Int.tdiv (w * ratio.2 - h * ratio.1) (ratio.1 * ratio.2)
    let pad_w_top := Int.tdiv pad_h 2
    (y_min - pad_w_top, x_min, y_max + (pad_h - pad_w_top), x_max)
  else
    (y_min, x_min, y_max, x_max)

/-- A per-side margin specification: Python `int | str`. -/
inductive MarginSpec where
  | int : Int → MarginSpec
  | str : String → MarginSpec
deriving DecidableEq, Repr

/-- The `Margin` configuration object; field order follows the constructor
`Margin(top, right, left, bottom)`. -/
structure Margin where
  top : MarginSpec
  right : MarginSpec
  left : MarginSpec
  bottom : MarginSpec
deriving DecidableEq, Repr

/-- Model of `Margin.get_margin(value, margin)` (the `self` parameter is unused).
An `int` spec is returned unchanged; a string ending in `"%"` yields
`int(value * int(margin[:-1]) / 100)` (`ValueError` if the prefix is not an
integer literal); any other string falls off the `if`/`elif` and returns
Python's implicit `None`. -/
def Margin.get_margin (value : Int) (margin : MarginSpec) : Except PyErr (Option Int) :=
  match margin with
  | .int m => .ok (some m)
  | .str s =>
    if pyEndsWith s '%' then
      match pyIntParse (String.mk s.data.dropLast) with
      | some p => .ok (some (Int.tdiv (value * p) 100))
      | none => .error .valueError
    else
      .ok none

/-- Model of `Margin._put_coordinates_in_range(value, max_value)` =
`max(0, min(value, max_value))`. -/
def Margin._put_coordinates_in_range (value max_value : Int) : Int :=
  max 0 (min value max_value)

/-- Model of `value - get_margin(value, spec)`: a `None` margin makes the subtraction
raise `TypeError`; a `ValueError` from `get_margin` propagates. -/
def marginSub (value : Int) (spec : MarginSpec) : Except PyErr Int :=
  match Margin.get_margin value spec with
  | .error e => .error e
  | .ok none => .error .typeError
  | .ok (some m) => .ok (value - m)

/-- Model of `value + get_margin(value, spec)`, with the same failure behaviour as
`marginSub`. -/
def marginAdd (value : Int) (spec : MarginSpec) : Except PyErr Int :=
  match Margin.get_margin value spec with
  | .error e => .error e
  | .ok none => .error .typeError
  | .ok (some m) => .ok (value + m)

/-- Model of `Margin.recalculate_coordinates`: expand the four coordinates by their
margins (top, left, bottom, right, each resolved against the coordinate's own
current value), then `maintain_ratio`, then clamp each coordinate into its
image bound. -/
def Margin.recalculate_coordinates (self : Margin) (y_min x_min y_max x_max : Int)
    (img_height img_width : Int) (ratio : Int × Int) :
    Except PyErr (Int × Int × Int × Int) :=
  match marginSub y_min self.top with
  | .error e => .error e
  | .ok y_min =>
  match marginSub x_min self.left with
  | .error e => .error e
  | .ok x_min =>
  match marginAdd y_max self.bottom with
  | .error e => .error e
  | .ok y_max =>
  match marginAdd x_max self.right with
  | .error e => .error e
  | .ok x_max =>
  match maintain_ratio y_min x_min y_max x_max ratio with
  | (y_min, x_min, y_max, x_max) =>
    .ok (Margin._put_coordinates_in_range y_min img_height,
         Margin._put_coordinates_in_range x_min img_width,
         Margin._put_coordinates_in_range y_max img_height,
         Margin._put_coordinates_in_range x_max img_width)

/-- The numpy slice `img[y_min:y_max, x_min:x_max]` for bounds already inside
the image (`0 ≤ y_min ≤ y_max ≤ height`, `0 ≤ x_min ≤ x_max ≤ width`), which
is what `recalculate_coordinates` guarantees at the one call site. -/
def npSlice (img : Image) (y_min x_min y_max x_max : Int) : Image :=
  ⟨(y_max - y_min).toNat, (x_max - x_min).toNat, img.channels,
   fun y x c => img.data (y + y_min.toNat) (x + x_min.toNat) c⟩

/-- Model of `crop_face_from_img(img, detections, margin, ratio)`: denormalize the box
against `img.shape`, recalculate the coordinates, slice. -/
def crop_face_from_img (img : Image) (detections : Detection) (margin : Margin)
    (ratio : Int × Int) : Except PyErr Image :=
  let y_min := pyint (detections.ymin * (img.height : ℚ))
  let x_min := pyint (detections.xmin * (img.width : ℚ))
  let y_max := pyint (detections.ymax * (img.height : ℚ))
  let x_max := pyint (detections.xmax * (img.width : ℚ))
  match margin.recalculate_coordinates y_min x_min y_max x_max
      (img.height : Int) (img.width : Int) ratio with
  | .error e => .error e
  | .ok (y_min, x_min, y_max, x_max) => .ok (npSlice img y_min x_min y_max x_max)

/-- The constant `BLAZEFACE_INPUT_SIZE = (128, 128)`. -/
def BLAZEFACE_INPUT_SIZE : Nat × Nat := (128, 128)

/-- Model of `create_padding(height, width, channels)` = `np.zeros((height, width, channels))`. -/
def create_padding (height width channels : Nat) : Image :=
  ⟨height, width, channels, fun _ _ _ => 0⟩

/-- Model of `np.hstack([a, b, c])` for images of equal height and channel count. -/
def hstack3 (a b c : Image) : Image :=
  ⟨a.height, a.width + b.width + c.width, a.channels, fun y x ch =>
    if x < a.width then a.data y x ch
    else if x < a.width + b.width then b.data y (x - a.width) ch
    else c.data y (x - a.width - b.width) ch⟩

/-- Model of `np.vstack([a, b, c])` for images of equal width and channel count. -/
def vstack3 (a b c : Image) : Image :=
  ⟨a.height + b.height + c.height, a.width, a.channels, fun y x ch =>
    if y < a.height then a.data y x ch
    else if y < a.height + b.height then b.data (y - a.height) x ch
    else c.data (y - a.height - b.height) x ch⟩

/-- Model of `make_image_rectangle(img)`: zero-pad the shorter dimension so the image
becomes `max(h, w) × max(h, w)`, splitting the padding as `diff // 2` on the
left/top and the remainder on the right/bottom. -/
def make_image_rectangle (img : Image) : Image :=
  let h := img.height
  let w := img.width
  let c := img.channels
  if h > w then
    let pad_w := h - w
    let pad_left_w := pad_w / 2
    let pad_right_w := pad_w - pad_left_w
    hstack3 (create_padding h pad_left_w c) img (create_padding h pad_right_w c)
  else if w > h then
    let pad_h := w - h
    let pad_top_h := pad_h / 2
    let pad_bot_h := pad_h - pad_top_h
    vstack3 (create_padding pad_top_h w c) img (create_padding pad_bot_h w c)
  else
    img

/-- Model of `PhaseOne._predict(img)`: downsize to the BlazeFace input size and run
the (opaque) detector. -/
def PhaseOne._predict (cv : CV2) (predict_on_image : Image → List Detection)
    (img : Image) : List Detection :=
  predict_on_image (downsize_img cv img BLAZEFACE_INPUT_SIZE)

/-- Model of `PhaseOne.run(img)`: pad to square, detect, bail out with a warning and
the original image on an empty batch, pick the biggest face, level the eyes,
re-detect, bail out likewise, pick the biggest face again, crop with the
configured margin and ratio `(1, 1)`. The detector handle `predict_on_image`
and the cv2 pixel behaviour `cv` are the opaque external collaborators; the
margin is the orchestrator's construction-time configuration. -/
def PhaseOne.run (cv : CV2) (predict_on_image : Image → List Detection)
    (margin : Margin) (img : Image) : Except PyErr (String × Image) :=
  let padded_img := make_image_rectangle img
  let downsized := downsize_img cv padded_img BLAZEFACE_INPUT_SIZE
  let detections := PhaseOne._predict cv predict_on_image downsized
  if detections.length == 0 then
    .ok ("Warning: No face detected. Returning original image", img)
  else
    match get_idx_of_biggest_face detections with
    | .error e => .error e
    | .ok biggest_face_idx =>
      match detections[biggest_face_idx]? with
      | none => .error .indexError
      | some det =>
        let rotated := reset_face_angle cv padded_img det
        let downsized2 := downsize_img cv rotated BLAZEFACE_INPUT_SIZE
        let detections2 := PhaseOne._predict cv predict_on_image downsized2
        if detections2.length == 0 then
          .ok ("Warning: Couldn't find face after resetting the angle. Returning original image", img)
        else
          match get_idx_of_biggest_face detections2 with
          | .error e => .error e
          | .ok biggest_face_idx2 =>
            match detections2[biggest_face_idx2]? with
            | none => .error .indexError
            | some det2 =>
              match crop_face_from_img rotated det2 margin (1, 1) with
              | .error e => .error e
              | .ok cropped_image => .ok ("", cropped_image)

/-! ## Statement-side descriptions of `run`'s dataflow

These name the intermediate values of `PhaseOne.run` so that theorems can
speak about "the first detection batch", "the rotated image" and "the second
detection batch"; each is definitionally the corresponding expression inside
`PhaseOne.run`. -/

/-- The batch produced by the first detection checkpoint of `run`. -/
def firstBatch (cv : CV2) (predict_on_image : Image → List Detection) (img : Image) :
    List Detection :=
  PhaseOne._predict cv predict_on_image
    (downsize_img cv (make_image_rectangle img) BLAZEFACE_INPUT_SIZE)

/-- The first-pass biggest detection chosen by `run` (defaulting arbitrarily
when the first batch is empty, in which case `run` has already returned). -/
def chosenDet1 (cv : CV2) (predict_on_image : Image → List Detection) (img : Image) :
    Detection :=
  match get_idx_of_biggest_face (firstBatch cv predict_on_image img) with
  | .ok i => ((firstBatch cv predict_on_image img)[i]?).getD default
  | .error _ => default

/-- The rotated (eye-levelled) image `run` computes from the padded input and
the first-pass biggest detection. -/
def rotatedImg (cv : CV2) (predict_on_image : Image → List Detection) (img : Image) :
    Image :=
  reset_face_angle cv (make_image_rectangle img) (chosenDet1 cv predict_on_image img)

/-- The batch produced by the second detection checkpoint of `run`. -/
def secondBatch (cv : CV2) (predict_on_image : Image → List Detection) (img : Image) :
    List Detection :=
  PhaseOne._predict cv predict_on_image
    (downsize_img cv (rotatedImg cv predict_on_image img) BLAZEFACE_INPUT_SIZE)

/-- A margin spec on which `get_margin` succeeds with a value: an `int`, or a
`"<integer>%"` string. -/
def validSpec : MarginSpec → Bool
  | .int _ => true
  | .str s => pyEndsWith s '%' && (pyIntParse (String.mk s.data.dropLast)).isSome

/-- A well-formed margin spec in the sense of the spec's configuration
contract: an `int` that is non-negative, or a `"<integer>%"` string with a
non-negative percentage. -/
def wfSpec : MarginSpec → Bool
  | .int n => decide (0 ≤ n)
  | .str s =>
    pyEndsWith s '%' &&
      (match pyIntParse (String.mk s.data.dropLast) with
       | some p => decide (0 ≤ p)
       | none => false)

/-- All four sides of a margin are `validSpec`. -/
def validMargin (m : Margin) : Bool :=
  validSpec m.top && validSpec m.right && validSpec m.left && validSpec m.bottom

/-- All four sides of a margin are `wfSpec`. -/
def wfMargin (m : Margin) : Bool :=
  wfSpec m.top && wfSpec m.right && wfSpec m.left && wfSpec m.bottom

/-! ## General helper lemmas -/

/-- Truncating division of a non-negative integer by a non-negative integer
does not exceed the dividend. -/
lemma tdiv_le_self_of_nonneg (a b : Int) (ha : 0 ≤ a) (hb : 0 ≤ b) : Int.tdiv a b ≤ a := by
  rw [Int.tdiv_eq_ediv ha hb]
  exact Int.ediv_le_self b ha

/-- A non-empty list has a `length == 0` test that is `false`. -/
lemma length_beq_zero_false {α : Type} (l : List α) (h : l ≠ []) : (l.length == 0) = false := by
  cases l with
  | nil => exact absurd rfl h
  | cons a t => rfl

/-! ## The selector: `argmax` of the per-detection areas -/

/-- Invariant of the `argmax` scan: the result is either the incoming best
index (and nothing in the remaining list beats the incoming best value), or
`i + k` for the first position `k` of the maximum of the remaining list,
which strictly beats the incoming best value. -/
lemma argmaxGo_spec (xs : List ℚ) : ∀ (cur : ℚ) (best i : Nat),
    (argmaxGo xs cur best i = best ∧ ∀ x ∈ xs, x ≤ cur) ∨
    (∃ k, ∃ hk : k < xs.length, argmaxGo xs cur best i = i + k ∧ cur < xs.get ⟨k, hk⟩ ∧
      ∀ x ∈ xs, x ≤ xs.get ⟨k, hk⟩) := by
  induction xs with
  | nil =>
    intro cur best i
    left
    exact ⟨rfl, by simp⟩
  | cons x rest ih =>
    intro cur best i
    by_cases hx : cur < x
    · rcases ih x i (i + 1) with ⟨heq, hall⟩ | ⟨k, hk, heq, hgt, hall⟩
      · right
        refine ⟨0, by simp, ?_, by simpa using hx, ?_⟩
        · simpa [argmaxGo, if_pos hx] using heq
        · intro y hy
          rcases List.mem_cons.mp hy with rfl | hy
          · simp
          · simpa using hall y hy
      · right
        refine ⟨k + 1, by simpa using Nat.succ_lt_succ hk, ?_, ?_, ?_⟩
        · have : argmaxGo (x :: rest) cur best i = argmaxGo rest x i (i + 1) := by
            simp [argmaxGo, if_pos hx]
          rw [this, heq]
          omega
        · simpa [List.get_cons_succ] using lt_trans hx hgt
        · intro y hy
          rcases List.mem_cons.mp hy with rfl | hy
          · simpa [List.get_cons_succ] using le_of_lt hgt
          · simpa [List.get_cons_succ] using hall y hy
    · rcases ih cur best (i + 1) with ⟨heq, hall⟩ | ⟨k, hk, heq, hgt, hall⟩
      · left
        refine ⟨by simpa [argmaxGo, if_neg hx] using heq, ?_⟩
        intro y hy
        rcases List.mem_cons.mp hy with rfl | hy
        · exact not_lt.mp hx
        · exact hall y hy
      · right
        refine ⟨k + 1, by simpa using Nat.succ_lt_succ hk, ?_, ?_, ?_⟩
        · have : argmaxGo (x :: rest) cur best i = argmaxGo rest cur best (i + 1) := by
            simp [argmaxGo, if_neg hx]
          rw [this, heq]
          omega
        · simpa [List.get_cons_succ] using hgt
        · intro y hy
          rcases List.mem_cons.mp hy with rfl | hy
          · simpa [List.get_cons_succ] using le_trans (not_lt.mp hx) (le_of_lt hgt)
          · simpa [List.get_cons_succ] using hall y hy

/-- On a non-empty batch the selector succeeds and returns an index of a
maximal-area detection. -/
lemma get_idx_ok (dets : List Detection) (h : dets ≠ []) :
    ∃ i, ∃ hi : i < dets.length, get_idx_of_biggest_face dets = .ok i ∧
      ∀ j (hj : j < dets.length), area dets[j] ≤ area dets[i] := by
  cases dets with
  | nil => exact absurd rfl h
  | cons d rest =>
    rcases argmaxGo_spec (rest.map area) (area d) 0 1 with ⟨heq, hall⟩ | ⟨k, hk, heq, hgt, hall⟩
    · refine ⟨0, by simp, ?_, ?_⟩
      · simp [get_idx_of_biggest_face, argmaxFirst, heq]
      · intro j hj
        cases j with
        | zero => simp
        | succ j =>
          have hj' : j < rest.length := by simpa using hj
          have hmem : area rest[j] ∈ rest.map area := by
            have hjm : j < (rest.map area).length := by simpa using hj'
            have : area rest[j] = (rest.map area).get ⟨j, hjm⟩ := by
              simp [List.get_eq_getElem, List.getElem_map]
            rw [this]
            exact List.get_mem _ _ _
          simpa using hall _ hmem
    · have hk' : k < rest.length := by simpa using hk
      have hgetk : (rest.map area).get ⟨k, hk⟩ = area rest[k] := by
        simp [List.get_eq_getElem, List.getElem_map]
      refine ⟨k + 1, by simpa using Nat.succ_lt_succ hk', ?_, ?_⟩
      · have : (1 : Nat) + k = k + 1 := by omega
        simp [get_idx_of_biggest_face, argmaxFirst, heq, this]
      · intro j hj
        cases j with
        | zero =>
          have := le_of_lt hgt
          rw [hgetk] at this
          simpa using this
        | succ j =>
          have hj' : j < rest.length := by simpa using hj
          have hmem : area rest[j] ∈ rest.map area := by
            have hjm : j < (rest.map area).length := by simpa using hj'
            have : area rest[j] = (rest.map area).get ⟨j, hjm⟩ := by
              simp [List.get_eq_getElem, List.getElem_map]
            rw [this]
            exact List.get_mem _ _ _
          have := hall _ hmem
          rw [hgetk] at this
          simpa using this

/-! ## Margin resolution lemmas -/

/-- On a `validSpec` margin specification, `get_margin` succeeds with a
value. -/
lemma get_margin_valid (v : Int) (spec : MarginSpec) (h : validSpec spec = true) :
    ∃ m, Margin.get_margin v spec = .ok (some m) := by
  cases spec with
  | int n => exact ⟨n, rfl⟩
  | str s =>
    have h' := h
    simp only [validSpec, Bool.and_eq_true] at h'
    obtain ⟨hend, hsome⟩ := h'
    obtain ⟨p, hp⟩ := Option.isSome_iff_exists.mp hsome
    exact ⟨Int.tdiv (v * p) 100, by simp [Margin.get_margin, hend, hp]⟩

/-- A well-formed spec is valid. -/
lemma wfSpec_valid (spec : MarginSpec) (h : wfSpec spec = true) : validSpec spec = true := by
  cases spec with
  | int n => rfl
  | str s =>
    simp only [wfSpec, Bool.and_eq_true] at h
    obtain ⟨hend, hsome⟩ := h
    simp only [validSpec, Bool.and_eq_true]
    refine ⟨hend, ?_⟩
    rcases hp : pyIntParse (String.mk s.data.dropLast) with _ | p
    · rw [hp] at hsome
      simp at hsome
    · simp

/-- On a well-formed spec and a non-negative base value, `get_margin`
succeeds with a non-negative margin. -/
lemma get_margin_wf (v : Int) (spec : MarginSpec) (h : wfSpec spec = true) (hv : 0 ≤ v) :
    ∃ m, Margin.get_margin v spec = .ok (some m) ∧ 0 ≤ m := by
  cases spec with
  | int n =>
    refine ⟨n, rfl, ?_⟩
    simpa [wfSpec] using h
  | str s =>
    simp only [wfSpec, Bool.and_eq_true] at h
    obtain ⟨hend, hrest⟩ := h
    rcases hp : pyIntParse (String.mk s.data.dropLast) with _ | p
    · rw [hp] at hrest
      simp at hrest
    · rw [hp] at hrest
      have hp0 : (0 : Int) ≤ p := by simpa using hrest
      refine ⟨Int.tdiv (v * p) 100, by simp [Margin.get_margin, hend, hp], ?_⟩
      exact Int.tdiv_nonneg (mul_nonneg hv hp0) (by norm_num)

/-- On a valid spec, `marginSub` succeeds. -/
lemma marginSub_valid (v : Int) (spec : MarginSpec) (h : validSpec spec = true) :
    ∃ r, marginSub v spec = .ok r := by
  obtain ⟨m, hm⟩ := get_margin_valid v spec h
  exact ⟨v - m, by simp [marginSub, hm]⟩

/-- On a valid spec, `marginAdd` succeeds. -/
lemma marginAdd_valid (v : Int) (spec : MarginSpec) (h : validSpec spec = true) :
    ∃ r, marginAdd v spec = .ok r := by
  obtain ⟨m, hm⟩ := get_margin_valid v spec h
  exact ⟨v + m, by simp [marginAdd, hm]⟩

/-- On a well-formed spec and non-negative value, `marginSub` succeeds and
does not increase the value. -/
lemma marginSub_wf (v : Int) (spec : MarginSpec) (h : wfSpec spec = true) (hv : 0 ≤ v) :
    ∃ r, marginSub v spec = .ok r ∧ r ≤ v := by
  obtain ⟨m, hm, hm0⟩ := get_margin_wf v spec h hv
  exact ⟨v - m, by simp [marginSub, hm], by omega⟩

/-- On a well-formed spec and non-negative value, `marginAdd` succeeds and
does not decrease the value. -/
lemma marginAdd_wf (v : Int) (spec : MarginSpec) (h : wfSpec spec = true) (hv : 0 ≤ v) :
    ∃ r, marginAdd v spec = .ok r ∧ v ≤ r := by
  obtain ⟨m, hm, hm0⟩ := get_margin_wf v spec h hv
  exact ⟨v + m, by simp [marginAdd, hm], by omega⟩

/-- The only error `get_margin` can raise is `ValueError`. -/
lemma get_margin_error (v : Int) (spec : MarginSpec) (e : PyErr)
    (h : Margin.get_margin v spec = .error e) : e = .valueError := by
  cases spec with
  | int n => simp [Margin.get_margin] at h
  | str s =>
    simp only [Margin.get_margin] at h
    by_cases hend : pyEndsWith s '%' = true
    · rw [if_pos hend] at h
      rcases hp : pyIntParse (String.mk s.data.dropLast) with _ | p
      · rw [hp] at h
        simpa using h.symm
      · rw [hp] at h
        simp at h
    · rw [if_neg hend] at h
      simp at h

/-- The only errors `marginSub` can raise are `TypeError` and `ValueError`. -/
lemma marginSub_error (v : Int) (spec : MarginSpec) (e : PyErr)
    (h : marginSub v spec = .error e) : e = .typeError ∨ e = .valueError := by
  simp only [marginSub] at h
  rcases hg : Margin.get_margin v spec with e' | mo
  · rw [hg] at h
    simp only [Except.error.injEq] at h
    right
    rw [← h]
    exact get_margin_error v spec e' hg
  · rw [hg] at h
    cases mo with
    | none =>
      simp only [Except.error.injEq] at h
      left
      exact h.symm
    | some m => simp at h

/-- The only errors `marginAdd` can raise are `TypeError` and `ValueError`. -/
lemma marginAdd_error (v : Int) (spec : MarginSpec) (e : PyErr)
    (h : marginAdd v spec = .error e) : e = .typeError ∨ e = .valueError := by
  simp only [marginAdd] at h
  rcases hg : Margin.get_margin v spec with e' | mo
  · rw [hg] at h
    simp only [Except.error.injEq] at h
    right
    rw [← h]
    exact get_margin_error v spec e' hg
  · rw [hg] at h
    cases mo with
    | none =>
      simp only [Except.error.injEq] at h
      left
      exact h.symm
    | some m => simp at h

/-! ## `maintain_ratio` lemmas -/

/-- With a positive target ratio, `maintain_ratio` only moves coordinates
outward: minima never increase and maxima never decrease. -/
lemma maintain_ratio_outward (y_min x_min y_max x_max : Int) (ratio : Int × Int)
    (h1 : 0 < ratio.1) (h2 : 0 < ratio.2) :
    (maintain_ratio y_min x_min y_max x_max ratio).1 ≤ y_min ∧
    (maintain_ratio y_min x_min y_max x_max ratio).2.1 ≤ x_min ∧
    y_max ≤ (maintain_ratio y_min x_min y_max x_max ratio).2.2.1 ∧
    x_max ≤ (maintain_ratio y_min x_min y_max x_max ratio).2.2.2 := by
  simp only [maintain_ratio]
  by_cases hc1 : (y_max - y_min) * ratio.1 > (x_max - x_min) * ratio.2
  · rw [if_pos hc1]
    have hnum : 0 ≤ (y_max - y_min) * ratio.1 - (x_max - x_min) * ratio.2 :=
      sub_nonneg.mpr (le_of_lt hc1)
    have hden : 0 ≤ ratio.1 * ratio.2 := le_of_lt (mul_pos h1 h2)
    have hpw : 0 ≤ Int.tdiv ((y_max - y_min) * ratio.1 - (x_max - x_min) * ratio.2)
        (ratio.1 * ratio.2) := Int.tdiv_nonneg hnum hden
    have hhalf0 : 0 ≤ Int.tdiv (Int.tdiv ((y_max - y_min) * ratio.1 - (x_max - x_min) * ratio.2)
        (ratio.1 * ratio.2)) 2 := Int.tdiv_nonneg hpw (by norm_num)
    have hhalfle : Int.tdiv (Int.tdiv ((y_max - y_min) * ratio.1 - (x_max - x_min) * ratio.2)
        (ratio.1 * ratio.2)) 2 ≤ Int.tdiv ((y_max - y_min) * ratio.1 - (x_max - x_min) * ratio.2)
        (ratio.1 * ratio.2) := tdiv_le_self_of_nonneg _ _ hpw (by norm_num)
    refine ⟨le_refl _, ?_, le_refl _, ?_⟩ <;> dsimp <;> omega
  · rw [if_neg hc1]
    by_cases hc2 : (y_max - y_min) * ratio.1 < (x_max - x_min) * ratio.2
    · rw [if_pos hc2]
      have hnum : 0 ≤ (x_max - x_min) * ratio.2 - (y_max - y_min) * ratio.1 :=
        sub_nonneg.mpr (le_of_lt hc2)
      have hden : 0 ≤ ratio.1 * ratio.2 := le_of_lt (mul_pos h1 h2)
      have hph : 0 ≤ Int.tdiv ((x_max - x_min) * ratio.2 - (y_max - y_min) * ratio.1)
          (ratio.1 * ratio.2) := Int.tdiv_nonneg hnum hden
      have hhalf0 : 0 ≤ Int.tdiv (Int.tdiv ((x_max - x_min) * ratio.2 - (y_max - y_min) * ratio.1)
          (ratio.1 * ratio.2)) 2 := Int.tdiv_nonneg hph (by norm_num)
      have hhalfle : Int.tdiv (Int.tdiv ((x_max - x_min) * ratio.2 - (y_max - y_min) * ratio.1)
          (ratio.1 * ratio.2)) 2 ≤ Int.tdiv ((x_max - x_min) * ratio.2 - (y_max - y_min) * ratio.1)
          (ratio.1 * ratio.2) := tdiv_le_self_of_nonneg _ _ hph (by norm_num)
      refine ⟨?_, le_refl _, ?_, le_refl _⟩ <;> dsimp <;> omega
    · rw [if_neg hc2]
      exact ⟨le_refl _, le_refl _, le_refl _, le_refl _⟩

/-- With the unit target ratio `(1, 1)` (the one `run` uses), `maintain_ratio`
produces an exactly square box. -/
lemma maintain_ratio_unit_square (y_min x_min y_max x_max : Int) :
    (maintain_ratio y_min x_min y_max x_max (1, 1)).2.2.1 -
      (maintain_ratio y_min x_min y_max x_max (1, 1)).1 =
    (maintain_ratio y_min x_min y_max x_max (1, 1)).2.2.2 -
      (maintain_ratio y_min x_min y_max x_max (1, 1)).2.1 := by
  simp only [maintain_ratio, mul_one]
  by_cases hc1 : y_max - y_min > x_max - x_min
  · rw [if_pos hc1]
    simp only [Int.tdiv_one]
    omega
  · rw [if_neg hc1]
    by_cases hc2 : y_max - y_min < x_max - x_min
    · rw [if_pos hc2]
      simp only [Int.tdiv_one]
      omega
    · rw [if_neg hc2]
      dsimp
      omega

/-! ## Clamp and `recalculate_coordinates` lemmas -/

/-- The clamp keeps values in `[0, max_value]` for a non-negative bound and
is monotone. -/
lemma clamp_spec (v max_value : Int) (hM : 0 ≤ max_value) :
    0 ≤ Margin._put_coordinates_in_range v max_value ∧
    Margin._put_coordinates_in_range v max_value ≤ max_value := by
  constructor
  · exact le_max_left 0 _
  · exact max_le hM (min_le_right v max_value)

/-- The clamp is monotone in the clamped value. -/
lemma clamp_mono (v v' max_value : Int) (h : v ≤ v') :
    Margin._put_coordinates_in_range v max_value ≤
      Margin._put_coordinates_in_range v' max_value :=
  max_le_max le_rfl (min_le_min h le_rfl)

/-- On a margin that is valid on all four sides, `recalculate_coordinates`
always produces a box. -/
lemma recalc_ok_of_valid (m : Margin) (hm : validMargin m = true)
    (y_min x_min y_max x_max img_height img_width : Int) (ratio : Int × Int) :
    ∃ box, m.recalculate_coordinates y_min x_min y_max x_max img_height img_width ratio =
      .ok box := by
  simp only [validMargin, Bool.and_eq_true] at hm
  obtain ⟨⟨⟨ht, hr⟩, hl⟩, hb⟩ := hm
  obtain ⟨r1, h1⟩ := marginSub_valid y_min m.top ht
  obtain ⟨r2, h2⟩ := marginSub_valid x_min m.left hl
  obtain ⟨r3, h3⟩ := marginAdd_valid y_max m.bottom hb
  obtain ⟨r4, h4⟩ := marginAdd_valid x_max m.right hr
  simp only [Margin.recalculate_coordinates, h1, h2, h3, h4]
  rcases hmr : maintain_ratio r1 r2 r3 r4 ratio with ⟨a, b, c, d⟩
  exact ⟨_, rfl⟩

/-- Every error raised by `recalculate_coordinates` is a `TypeError` or a
`ValueError` (from margin resolution); in particular it never raises
`EmptyInputError` or `IndexError`. -/
lemma recalc_error_shape (m : Margin) (y_min x_min y_max x_max img_height img_width : Int)
    (ratio : Int × Int) (e : PyErr)
    (h : m.recalculate_coordinates y_min x_min y_max x_max img_height img_width ratio =
      .error e) : e = .typeError ∨ e = .valueError := by
  simp only [Margin.recalculate_coordinates] at h
  rcases hg1 : marginSub y_min m.top with e1 | r1
  · rw [hg1] at h
    simp only [Except.error.injEq] at h
    rw [← h]
    exact marginSub_error _ _ _ hg1
  · rw [hg1] at h
    rcases hg2 : marginSub x_min m.left with e2 | r2
    · rw [hg2] at h
      simp only [Except.error.injEq] at h
      rw [← h]
      exact marginSub_error _ _ _ hg2
    · rw [hg2] at h
      rcases hg3 : marginAdd y_max m.bottom with e3 | r3
      · rw [hg3] at h
        simp only [Except.error.injEq] at h
        rw [← h]
        exact marginAdd_error _ _ _ hg3
      · rw [hg3] at h
        rcases hg4 : marginAdd x_max m.right with e4 | r4
        · rw [hg4] at h
          simp only [Except.error.injEq] at h
          rw [← h]
          exact marginAdd_error _ _ _ hg4
        · rw [hg4] at h
          simp at h

/-- The only errors `crop_face_from_img` can raise are `TypeError` and
`ValueError`. -/
lemma crop_error_shape (img : Image) (det : Detection) (m : Margin) (ratio : Int × Int)
    (e : PyErr) (h : crop_face_from_img img det m ratio = .error e) :
    e = .typeError ∨ e = .valueError := by
  simp only [crop_face_from_img] at h
  rcases hr : m.recalculate_coordinates (pyint (det.ymin * (img.height : ℚ)))
      (pyint (det.xmin * (img.width : ℚ))) (pyint (det.ymax * (img.height : ℚ)))
      (pyint (det.xmax * (img.width : ℚ))) (img.height : Int) (img.width : Int) ratio
      with e' | box
  · rw [hr] at h
    simp only [Except.error.injEq] at h
    rw [← h]
    exact recalc_error_shape _ _ _ _ _ _ _ _ _ hr
  · rw [hr] at h
    rcases box with ⟨a, b, c, d⟩
    simp at h

/-! ## Characterization of `PhaseOne.run` -/

/-- After a non-empty first checkpoint, `run` is the second checkpoint
followed by the crop of the rotated image. -/
lemma run_after_first (cv : CV2) (predict_on_image : Image → List Detection) (m : Margin)
    (img : Image) (hb1 : firstBatch cv predict_on_image img ≠ []) :
    PhaseOne.run cv predict_on_image m img =
      (if (secondBatch cv predict_on_image img).length == 0 then
        .ok ("Warning: Couldn't find face after resetting the angle. Returning original image",
          img)
      else
        match get_idx_of_biggest_face (secondBatch cv predict_on_image img) with
        | .error e => .error e
        | .ok idx2 =>
          match (secondBatch cv predict_on_image img)[idx2]? with
          | none => .error .indexError
          | some det2 =>
            match crop_face_from_img (rotatedImg cv predict_on_image img) det2 m (1, 1) with
            | .error e => .error e
            | .ok cropped_image => .ok ("", cropped_image)) := by
  obtain ⟨i1, hi1, hsel1, _⟩ := get_idx_ok _ hb1
  have hd1 : chosenDet1 cv predict_on_image img = (firstBatch cv predict_on_image img)[i1] := by
    simp only [chosenDet1, hsel1]
    simp [List.getElem?_eq_getElem hi1]
  have hrot : reset_face_angle cv (make_image_rectangle img)
      (firstBatch cv predict_on_image img)[i1] = rotatedImg cv predict_on_image img := by
    simp only [rotatedImg, hd1]
  have hb1' : PhaseOne._predict cv predict_on_image
      (downsize_img cv (make_image_rectangle img) BLAZEFACE_INPUT_SIZE) ≠ [] := hb1
  have hlen1 := length_beq_zero_false _ hb1'
  have hsel1' : get_idx_of_biggest_face (PhaseOne._predict cv predict_on_image
      (downsize_img cv (make_image_rectangle img) BLAZEFACE_INPUT_SIZE)) = .ok i1 := hsel1
  have hopt1 : (PhaseOne._predict cv predict_on_image
      (downsize_img cv (make_image_rectangle img) BLAZEFACE_INPUT_SIZE))[i1]? =
      some (firstBatch cv predict_on_image img)[i1] := List.getElem?_eq_getElem hi1
  simp only [PhaseOne.run, hlen1, Bool.false_eq_true, if_false, hsel1', hopt1, hrot]
  rfl

/-- The three terminal behaviours of `PhaseOne.run`: first checkpoint empty,
second checkpoint empty, or a successful crop of the rotated image at a
maximal-area second-pass detection. -/
lemma run_cases (cv : CV2) (predict_on_image : Image → List Detection) (m : Margin)
    (img : Image) :
    (firstBatch cv predict_on_image img = [] ∧
      PhaseOne.run cv predict_on_image m img =
        .ok ("Warning: No face detected. Returning original image", img)) ∨
    (firstBatch cv predict_on_image img ≠ [] ∧ secondBatch cv predict_on_image img = [] ∧
      PhaseOne.run cv predict_on_image m img =
        .ok ("Warning: Couldn't find face after resetting the angle. Returning original image",
          img)) ∨
    (firstBatch cv predict_on_image img ≠ [] ∧ secondBatch cv predict_on_image img ≠ [] ∧
      ∃ i, ∃ hi : i < (secondBatch cv predict_on_image img).length,
        get_idx_of_biggest_face (secondBatch cv predict_on_image img) = .ok i ∧
        (∀ j (hj : j < (secondBatch cv predict_on_image img).length),
          area (secondBatch cv predict_on_image img)[j] ≤
            area (secondBatch cv predict_on_image img)[i]) ∧
        PhaseOne.run cv predict_on_image m img =
          (match crop_face_from_img (rotatedImg cv predict_on_image img)
              (secondBatch cv predict_on_image img)[i] m (1, 1) with
           | .error e => .error e
           | .ok cropped_image => .ok ("", cropped_image))) := by
  by_cases hb1 : firstBatch cv predict_on_image img = []
  · left
    refine ⟨hb1, ?_⟩
    have hb1' : PhaseOne._predict cv predict_on_image
        (downsize_img cv (make_image_rectangle img) BLAZEFACE_INPUT_SIZE) = [] := hb1
    simp only [PhaseOne.run, hb1']
    simp
  · by_cases hb2 : secondBatch cv predict_on_image img = []
    · right
      left
      refine ⟨hb1, hb2, ?_⟩
      rw [run_after_first cv predict_on_image m img hb1, hb2]
      simp
    · right
      right
      obtain ⟨i2, hi2, hsel2, hmax2⟩ := get_idx_ok _ hb2
      refine ⟨hb1, hb2, i2, hi2, hsel2, hmax2, ?_⟩
      rw [run_after_first cv predict_on_image m img hb1]
      rw [length_beq_zero_false _ hb2]
      simp only [Bool.false_eq_true, if_false, hsel2, List.getElem?_eq_getElem hi2]

/-! ## Claim theorems -/

/-- Claim C1 (amended): for every box and every positive target ratio,
`maintain_ratio` never shrinks the height or the width; and for the target
ratio `(1, 1)` — the only one the pipeline passes — the returned box
satisfies `(y_max - y_min) * rw = (x_max - x_min) * rh` exactly (so in
particular within the claimed ±1). For other ratios the identity can fail by
more than 1 (see the counterexample). -/
theorem maintain_ratio_no_shrink_and_unit_ratio_exact
    (y_min x_min y_max x_max : Int) (ratio : Int × Int)
    (h1 : 0 < ratio.1) (h2 : 0 < ratio.2) :
    y_max - y_min ≤ (maintain_ratio y_min x_min y_max x_max ratio).2.2.1 -
      (maintain_ratio y_min x_min y_max x_max ratio).1 ∧
    x_max - x_min ≤ (maintain_ratio y_min x_min y_max x_max ratio).2.2.2 -
      (maintain_ratio y_min x_min y_max x_max ratio).2.1 ∧
    (ratio = (1, 1) →
      ((maintain_ratio y_min x_min y_max x_max ratio).2.2.1 -
        (maintain_ratio y_min x_min y_max x_max ratio).1) * ratio.2 =
      ((maintain_ratio y_min x_min y_max x_max ratio).2.2.2 -
        (maintain_ratio y_min x_min y_max x_max ratio).2.1) * ratio.1) := by
  obtain ⟨ha, hb, hc, hd⟩ := maintain_ratio_outward y_min x_min y_max x_max ratio h1 h2
  refine ⟨by omega, by omega, ?_⟩
  rintro rfl
  simpa using maintain_ratio_unit_square y_min x_min y_max x_max

/-- Witness for the amended C1 at the box `(0, 0, 2, 1)` and ratio `(1, 1)`. -/
theorem maintain_ratio_no_shrink_and_unit_ratio_exact_witness :
    (2 : Int) - 0 ≤ (maintain_ratio 0 0 2 1 (1, 1)).2.2.1 -
      (maintain_ratio 0 0 2 1 (1, 1)).1 ∧
    (1 : Int) - 0 ≤ (maintain_ratio 0 0 2 1 (1, 1)).2.2.2 -
      (maintain_ratio 0 0 2 1 (1, 1)).2.1 ∧
    (((1 : Int), (1 : Int)) = (1, 1) →
      ((maintain_ratio 0 0 2 1 (1, 1)).2.2.1 - (maintain_ratio 0 0 2 1 (1, 1)).1) *
        ((1 : Int), (1 : Int)).2 =
      ((maintain_ratio 0 0 2 1 (1, 1)).2.2.2 - (maintain_ratio 0 0 2 1 (1, 1)).2.1) *
        ((1 : Int), (1 : Int)).1) :=
  maintain_ratio_no_shrink_and_unit_ratio_exact 0 0 2 1 (1, 1) (by norm_num) (by norm_num)

/-- Claim C1 counterexample: at the box `(0, 0, 5, 1)` with positive target
ratio `(rh, rw) = (2, 1)`, `maintain_ratio` returns `(0, -2, 5, 3)`, whose
`(y_max - y_min) * rw` and `(x_max - x_min) * rh` differ by 5, not at most 1.
So the claimed ±1 ratio identity is false as stated for general positive
ratios. -/
theorem maintain_ratio_ratio_claim_cex :
    (0 : Int) < 2 ∧ (0 : Int) < 1 ∧
    maintain_ratio 0 0 5 1 (2, 1) = (0, -2, 5, 3) ∧
    1 < (((maintain_ratio 0 0 5 1 (2, 1)).2.2.1 - (maintain_ratio 0 0 5 1 (2, 1)).1) * 1 -
      ((maintain_ratio 0 0 5 1 (2, 1)).2.2.2 - (maintain_ratio 0 0 5 1 (2, 1)).2.1) * 2).natAbs := by
  refine ⟨by norm_num, by norm_num, by decide, by decide⟩

/-- Claim C4: margin resolution returns absolute integer specs unchanged; on a
`"p%"` spec (non-negative `p`) and non-negative base value it returns
`floor(value * p / 100)`, computed against the coordinate value itself; in
particular `resolve(100, "10%") = 10` and `resolve(7, "10%") = 0`. -/
theorem get_margin_resolution (value n p : Int) (s : String)
    (hv : 0 ≤ value) (hp : 0 ≤ p) (hend : pyEndsWith s '%' = true)
    (hparse : pyIntParse (String.mk s.data.dropLast) = some p) :
    Margin.get_margin value (.int n) = .ok (some n) ∧
    Margin.get_margin value (.str s) = .ok (some (Int.fdiv (value * p) 100)) ∧
    Margin.get_margin 100 (.str "10%") = .ok (some 10) ∧
    Margin.get_margin 7 (.str "10%") = .ok (some 0) := by
  refine ⟨rfl, ?_, rfl, rfl⟩
  rw [Int.fdiv_eq_tdiv (mul_nonneg hv hp) (by norm_num)]
  simp [Margin.get_margin, hend, hparse]

/-- Witness for C4 at `value = 100`, `n = 5`, spec `"10%"`. -/
theorem get_margin_resolution_witness :
    Margin.get_margin 100 (.int 5) = .ok (some 5) ∧
    Margin.get_margin 100 (.str "10%") = .ok (some (Int.fdiv (100 * 10) 100)) ∧
    Margin.get_margin 100 (.str "10%") = .ok (some 10) ∧
    Margin.get_margin 7 (.str "10%") = .ok (some 0) :=
  get_margin_resolution 100 5 10 "10%" (by norm_num) (by norm_num) (by decide) (by decide)

/-- Claim C6: on the empty batch the selector fails with the empty-input error;
on a non-empty batch it succeeds with the index of a detection whose
normalized-box area `(y_max - y_min) * (x_max - x_min)` is maximal. -/
theorem get_idx_of_biggest_face_selects_max (dets : List Detection) :
    (dets = [] → get_idx_of_biggest_face dets = .error .emptyInput) ∧
    (dets ≠ [] → ∃ i, ∃ hi : i < dets.length, get_idx_of_biggest_face dets = .ok i ∧
      ∀ j (hj : j < dets.length), area dets[j] ≤ area dets[i]) := by
  constructor
  · rintro rfl
    rfl
  · exact get_idx_ok dets

/-- Witness for C6: the empty batch errors, and the batch with boxes
`(0, 0, 0.1, 0.1)` and `(0, 0, 0.5, 0.5)` yields a maximal index. -/
theorem get_idx_of_biggest_face_selects_max_witness :
    get_idx_of_biggest_face [] = .error .emptyInput ∧
    (∃ i, ∃ hi : i < ([⟨0, 0, 1/10, 1/10, 0, 0, 0, 0⟩, ⟨0, 0, 1/2, 1/2, 0, 0, 0, 0⟩] :
        List Detection).length,
      get_idx_of_biggest_face
        [⟨0, 0, 1/10, 1/10, 0, 0, 0, 0⟩, ⟨0, 0, 1/2, 1/2, 0, 0, 0, 0⟩] = .ok i ∧
      ∀ j (hj : j < ([⟨0, 0, 1/10, 1/10, 0, 0, 0, 0⟩, ⟨0, 0, 1/2, 1/2, 0, 0, 0, 0⟩] :
          List Detection).length),
        area ([⟨0, 0, 1/10, 1/10, 0, 0, 0, 0⟩, ⟨0, 0, 1/2, 1/2, 0, 0, 0, 0⟩] :
          List Detection)[j] ≤
        area ([⟨0, 0, 1/10, 1/10, 0, 0, 0, 0⟩, ⟨0, 0, 1/2, 1/2, 0, 0, 0, 0⟩] :
          List Detection)[i]) :=
  ⟨(get_idx_of_biggest_face_selects_max []).1 rfl,
   (get_idx_of_biggest_face_selects_max
     [⟨0, 0, 1/10, 1/10, 0, 0, 0, 0⟩, ⟨0, 0, 1/2, 1/2, 0, 0, 0, 0⟩]).2 (by simp)⟩

/-- Claim C10: `get_margin` is total with a value only on `int` specs and
`"<integer>%"` strings: a string spec not ending in `"%"` yields Python's
implicit `None`, a `"%"`-suffixed spec with a non-integer prefix raises
`ValueError`, and in either case `recalculate_coordinates` fails (with
`TypeError` from the `None` arithmetic, resp. the propagated `ValueError`)
instead of producing a box. -/
theorem get_margin_partiality :
    (∀ (v : Int) (s : String), pyEndsWith s '%' = false →
      Margin.get_margin v (.str s) = .ok none) ∧
    (∀ (v : Int) (s : String), pyEndsWith s '%' = true →
      pyIntParse (String.mk s.data.dropLast) = none →
      Margin.get_margin v (.str s) = .error .valueError) ∧
    (∀ (m : Margin) (y_min x_min y_max x_max img_height img_width : Int)
      (ratio : Int × Int),
      Margin.get_margin y_min m.top = .ok none →
      m.recalculate_coordinates y_min x_min y_max x_max img_height img_width ratio =
        .error .typeError) ∧
    (∀ (m : Margin) (y_min x_min y_max x_max img_height img_width : Int)
      (ratio : Int × Int),
      Margin.get_margin y_min m.top = .error .valueError →
      m.recalculate_coordinates y_min x_min y_max x_max img_height img_width ratio =
        .error .valueError) := by
  refine ⟨?_, ?_, ?_, ?_⟩
  · intro v s h
    simp [Margin.get_margin, h]
  · intro v s hend hparse
    simp [Margin.get_margin, hend, hparse]
  · intro m y_min x_min y_max x_max img_height img_width ratio h
    simp [Margin.recalculate_coordinates, marginSub, h]
  · intro m y_min x_min y_max x_max img_height img_width ratio h
    simp [Margin.recalculate_coordinates, marginSub, h]

/-- Witness for C10 on the specs `"30"` (no percent sign) and `"ab%"`
(non-integer prefix). -/
theorem get_margin_partiality_witness :
    Margin.get_margin 5 (.str "30") = .ok none ∧
    Margin.get_margin 5 (.str "ab%") = .error .valueError ∧
    Margin.recalculate_coordinates ⟨.str "30", .int 0, .int 0, .int 0⟩ 5 0 0 0 10 10 (1, 1) =
      .error .typeError ∧
    Margin.recalculate_coordinates ⟨.str "ab%", .int 0, .int 0, .int 0⟩ 5 0 0 0 10 10 (1, 1) =
      .error .valueError :=
  ⟨get_margin_partiality.1 5 "30" (by decide),
   get_margin_partiality.2.1 5 "ab%" (by decide) (by decide),
   get_margin_partiality.2.2.1 ⟨.str "30", .int 0, .int 0, .int 0⟩ 5 0 0 0 10 10 (1, 1)
     (get_margin_partiality.1 5 "30" (by decide)),
   get_margin_partiality.2.2.2 ⟨.str "ab%", .int 0, .int 0, .int 0⟩ 5 0 0 0 10 10 (1, 1)
     (get_margin_partiality.2.1 5 "ab%" (by decide) (by decide))⟩

/-- Claim C5: on a box with non-negative, ordered coordinates, a well-formed
margin configuration, a positive target ratio and positive image bounds,
`recalculate_coordinates` produces a box satisfying the clamped box
invariant `0 ≤ y_min ≤ y_max ≤ H` and `0 ≤ x_min ≤ x_max ≤ W`. -/
theorem recalculate_coordinates_box_invariant (m : Margin)
    (y_min x_min y_max x_max img_height img_width : Int) (ratio : Int × Int)
    (hm : wfMargin m = true) (hy0 : 0 ≤ y_min) (hyy : y_min ≤ y_max)
    (hx0 : 0 ≤ x_min) (hxx : x_min ≤ x_max) (hr1 : 0 < ratio.1) (hr2 : 0 < ratio.2)
    (hH : 0 < img_height) (hW : 0 < img_width) :
    ∃ a b c d, m.recalculate_coordinates y_min x_min y_max x_max img_height img_width ratio =
      .ok (a, b, c, d) ∧
      0 ≤ a ∧ a ≤ c ∧ c ≤ img_height ∧ 0 ≤ b ∧ b ≤ d ∧ d ≤ img_width := by
  simp only [wfMargin, Bool.and_eq_true] at hm
  obtain ⟨⟨⟨ht, hr⟩, hl⟩, hb⟩ := hm
  obtain ⟨r1, h1, h1le⟩ := marginSub_wf y_min m.top ht hy0
  obtain ⟨r2, h2, h2le⟩ := marginSub_wf x_min m.left hl hx0
  obtain ⟨r3, h3, h3le⟩ := marginAdd_wf y_max m.bottom hb (by omega)
  obtain ⟨r4, h4, h4le⟩ := marginAdd_wf x_max m.right hr (by omega)
  obtain ⟨o1, o2, o3, o4⟩ := maintain_ratio_outward r1 r2 r3 r4 ratio hr1 hr2
  simp only [Margin.recalculate_coordinates, h1, h2, h3, h4]
  rcases hmr : maintain_ratio r1 r2 r3 r4 ratio with ⟨ma, mb, mc, md⟩
  rw [hmr] at o1 o2 o3 o4
  dsimp only at o1 o2 o3 o4 ⊢
  refine ⟨_, _, _, _, rfl, ?_, ?_, ?_, ?_, ?_, ?_⟩
  · exact le_max_left 0 _
  · exact clamp_mono _ _ _ (by omega)
  · exact (clamp_spec _ _ (by omega)).2
  · exact le_max_left 0 _
  · exact clamp_mono _ _ _ (by omega)
  · exact (clamp_spec _ _ (by omega)).2

/-- Witness for C5 with the source's default margin
`Margin("30%", 30, 30, 5)`, box `(10, 20, 50, 60)`, a 100 × 100 image and
ratio `(1, 1)`. -/
theorem recalculate_coordinates_box_invariant_witness :
    ∃ a b c d,
      Margin.recalculate_coordinates ⟨.str "30%", .int 30, .int 30, .int 5⟩
        10 20 50 60 100 100 (1, 1) = .ok (a, b, c, d) ∧
      0 ≤ a ∧ a ≤ c ∧ c ≤ 100 ∧ 0 ≤ b ∧ b ≤ d ∧ d ≤ 100 :=
  recalculate_coordinates_box_invariant ⟨.str "30%", .int 30, .int 30, .int 5⟩
    10 20 50 60 100 100 (1, 1) (by decide) (by norm_num) (by norm_num) (by norm_num)
    (by norm_num) (by norm_num) (by norm_num) (by norm_num) (by norm_num)

/-! ## Square padding lemmas -/

/-- The padded image is `max(h, w)` tall. -/
lemma make_image_rectangle_height (img : Image) :
    (make_image_rectangle img).height = max img.height img.width := by
  simp only [make_image_rectangle]
  split_ifs with hc1 hc2 <;> simp [hstack3, vstack3, create_padding] <;> omega

/-- The padded image is `max(h, w)` wide. -/
lemma make_image_rectangle_width (img : Image) :
    (make_image_rectangle img).width = max img.height img.width := by
  simp only [make_image_rectangle]
  split_ifs with hc1 hc2 <;> simp [hstack3, vstack3, create_padding] <;> omega

/-- Padding preserves the channel count. -/
lemma make_image_rectangle_channels (img : Image) :
    (make_image_rectangle img).channels = img.channels := by
  simp only [make_image_rectangle]
  split_ifs with hc1 hc2 <;> rfl

/-- Padding an already-square image returns it unchanged. -/
lemma make_image_rectangle_square_id (img : Image) (h : img.height = img.width) :
    make_image_rectangle img = img := by
  simp only [make_image_rectangle]
  rw [if_neg (by omega), if_neg (by omega)]

/-- Claim C8: square padding yields a `max(h, w) × max(h, w)` image with the
channel count preserved; it is the identity on square images and idempotent
in general; for a tall image the columns shift right by `(h - w) / 2` (the
original pixels are preserved there) and the `(h - w) / 2` left columns and
`(h - w) - (h - w) / 2` right columns are zero; symmetrically for a wide
image with rows shifted down by `(w - h) / 2`. -/
theorem make_image_rectangle_spec (img : Image) :
    (make_image_rectangle img).height = max img.height img.width ∧
    (make_image_rectangle img).width = max img.height img.width ∧
    (make_image_rectangle img).channels = img.channels ∧
    (img.height = img.width → make_image_rectangle img = img) ∧
    make_image_rectangle (make_image_rectangle img) = make_image_rectangle img ∧
    (img.height > img.width →
      (∀ y x c, x < img.width →
        (make_image_rectangle img).data y ((img.height - img.width) / 2 + x) c =
          img.data y x c) ∧
      (∀ y x c, x < (img.height - img.width) / 2 →
        (make_image_rectangle img).data y x c = 0) ∧
      (∀ y x c, (img.height - img.width) / 2 + img.width ≤ x →
        (make_image_rectangle img).data y x c = 0)) ∧
    (img.width > img.height →
      (∀ y x c, y < img.height →
        (make_image_rectangle img).data ((img.width - img.height) / 2 + y) x c =
          img.data y x c) ∧
      (∀ y x c, y < (img.width - img.height) / 2 →
        (make_image_rectangle img).data y x c = 0) ∧
      (∀ y x c, (img.width - img.height) / 2 + img.height ≤ y →
        (make_image_rectangle img).data y x c = 0)) := by
  refine ⟨make_image_rectangle_height img, make_image_rectangle_width img,
    make_image_rectangle_channels img, make_image_rectangle_square_id img,
    make_image_rectangle_square_id _ (by
      rw [make_image_rectangle_height, make_image_rectangle_width]), ?_, ?_⟩
  · intro hgt
    have hne : ¬img.height = img.width ∧ img.height > img.width := ⟨by omega, hgt⟩
    refine ⟨?_, ?_, ?_⟩
    · intro y x c hx
      simp only [make_image_rectangle, if_pos hgt, hstack3, create_padding]
      rw [if_neg (by omega), if_pos (by omega)]
      congr 1
      omega
    · intro y x c hx
      simp only [make_image_rectangle, if_pos hgt, hstack3, create_padding]
      rw [if_pos (by omega)]
    · intro y x c hx
      simp only [make_image_rectangle, if_pos hgt, hstack3, create_padding]
      rw [if_neg (by omega), if_neg (by omega)]
  · intro hgt
    have hnot1 : ¬img.height > img.width := by omega
    refine ⟨?_, ?_, ?_⟩
    · intro y x c hy
      simp only [make_image_rectangle, if_neg hnot1, if_pos hgt, vstack3, create_padding]
      rw [if_neg (by omega), if_pos (by omega)]
      congr 1
      omega
    · intro y x c hy
      simp only [make_image_rectangle, if_neg hnot1, if_pos hgt, vstack3, create_padding]
      rw [if_pos (by omega)]
    · intro y x c hy
      simp only [make_image_rectangle, if_neg hnot1, if_pos hgt, vstack3, create_padding]
      rw [if_neg (by omega), if_neg (by omega)]

/-- Witness for C8 on the 3 × 1 single-channel image with pixel values
`10 * y + x + 1`: the result is 3 wide, with a zero column, the original
column, and another zero column. -/
theorem make_image_rectangle_spec_witness :
    (make_image_rectangle ⟨3, 1, 1, fun y x _ => 10 * y + x + 1⟩).height = 3 ∧
    (make_image_rectangle ⟨3, 1, 1, fun y x _ => 10 * y + x + 1⟩).width = 3 ∧
    (make_image_rectangle ⟨3, 1, 1, fun y x _ => 10 * y + x + 1⟩).data 0 0 0 = 0 ∧
    (make_image_rectangle ⟨3, 1, 1, fun y x _ => 10 * y + x + 1⟩).data 0 1 0 = 1 ∧
    (make_image_rectangle ⟨3, 1, 1, fun y x _ => 10 * y + x + 1⟩).data 0 2 0 = 0 := by
  obtain ⟨hh, hw, -, -, -, htall, -⟩ :=
    make_image_rectangle_spec ⟨3, 1, 1, fun y x _ => 10 * y + x + 1⟩
  obtain ⟨hpres, hzleft, hzright⟩ := htall (by decide)
  refine ⟨by rw [hh]; decide, by rw [hw]; decide, ?_, ?_, ?_⟩
  · exact hzleft 0 0 0 (by decide)
  · exact hpres 0 0 0 (by decide)
  · exact hzright 0 2 0 (by decide)

/-- Claim C9 (amended): `reset_face_angle` returns an image whose height is the
input's *width* and whose width is the input's *height* (the source swaps the
two when it passes `img.shape[:2]` as warpAffine's `(width, height)`), with
the channel count preserved; consequently on square inputs — the only inputs
the orchestrator ever passes, having padded to square first — the output has
exactly the input's dimensions. -/
theorem reset_face_angle_dims (cv : CV2) (img : Image) (d : Detection) :
    (reset_face_angle cv img d).height = img.width ∧
    (reset_face_angle cv img d).width = img.height ∧
    (reset_face_angle cv img d).channels = img.channels ∧
    (img.height = img.width →
      (reset_face_angle cv img d).height = img.height ∧
      (reset_face_angle cv img d).width = img.width) := by
  refine ⟨rfl, rfl, rfl, ?_⟩
  intro h
  constructor
  · rw [show (reset_face_angle cv img d).height = img.width from rfl, h]
  · rw [show (reset_face_angle cv img d).width = img.height from rfl, h]

/-- Witness for the amended C9 on a square 2 × 2 image. -/
theorem reset_face_angle_dims_witness :
    (reset_face_angle ⟨fun _ _ _ _ _ => 0, fun _ _ _ _ _ _ _ => 0⟩
      ⟨2, 2, 3, fun _ _ _ => 0⟩ default).height = 2 ∧
    (reset_face_angle ⟨fun _ _ _ _ _ => 0, fun _ _ _ _ _ _ _ => 0⟩
      ⟨2, 2, 3, fun _ _ _ => 0⟩ default).width = 2 :=
  (reset_face_angle_dims ⟨fun _ _ _ _ _ => 0, fun _ _ _ _ _ _ _ => 0⟩
    ⟨2, 2, 3, fun _ _ _ => 0⟩ default).2.2.2 rfl

/-- Claim C9 counterexample: on a non-square 2 × 1 input, the aligned image
does *not* keep the input's dimensions — its height is the input's width 1,
not 2 — so the claim is false for arbitrary (non-square) inputs. -/
theorem reset_face_angle_dims_cex :
    (reset_face_angle ⟨fun _ _ _ _ _ => 0, fun _ _ _ _ _ _ _ => 0⟩
      ⟨2, 1, 1, fun _ _ _ => 0⟩ default).height ≠
    (⟨2, 1, 1, fun _ _ _ => 0⟩ : Image).height := by
  decide

/-- Claim C7: whatever the detector and cv2 stubs, the margin configuration and
the input image, `run` never propagates the selector's empty-batch failure:
both selector call sites sit behind an emptiness check, so
`EmptyInputError` is unreachable from `run`. -/
theorem run_never_raises_empty_input (cv : CV2) (predict_on_image : Image → List Detection)
    (m : Margin) (img : Image) :
    PhaseOne.run cv predict_on_image m img ≠ Except.error PyErr.emptyInput := by
  rcases run_cases cv predict_on_image m img with ⟨-, hr⟩ | ⟨-, -, hr⟩ | ⟨-, -, i, hi, -, -, hr⟩
  · rw [hr]
    simp
  · rw [hr]
    simp
  · rw [hr]
    rcases hcrop : crop_face_from_img (rotatedImg cv predict_on_image img)
        (secondBatch cv predict_on_image img)[i] m (1, 1) with e | c
    · rcases crop_error_shape _ _ _ _ _ hcrop with he | he <;>
        simp [hcrop, he]
    · simp [hcrop]

/-- Claim C2: if the first detection batch is empty, `run` returns exactly
`"Warning: No face detected. Returning original image"` together with the
original input image object; if the first batch is non-empty and the second
is empty, `run` returns a non-empty warning together with the original input
image; and whenever `run` returns a status at all, that status is non-empty
if and only if one of the two detection batches is empty. -/
theorem run_warning_behaviour (cv : CV2) (predict_on_image : Image → List Detection)
    (m : Margin) (img : Image) :
    (firstBatch cv predict_on_image img = [] →
      PhaseOne.run cv predict_on_image m img =
        .ok ("Warning: No face detected. Returning original image", img)) ∧
    (firstBatch cv predict_on_image img ≠ [] → secondBatch cv predict_on_image img = [] →
      ∃ msg, msg ≠ "" ∧ PhaseOne.run cv predict_on_image m img = .ok (msg, img)) ∧
    (∀ msg out, PhaseOne.run cv predict_on_image m img = .ok (msg, out) →
      (msg ≠ "" ↔ (firstBatch cv predict_on_image img = [] ∨
        secondBatch cv predict_on_image img = []))) := by
  rcases run_cases cv predict_on_image m img with ⟨h1, hr⟩ | ⟨h1, h2, hr⟩ |
    ⟨h1, h2, i, hi, hsel, hmax, hr⟩
  · refine ⟨fun _ => hr, fun hne _ => absurd h1 hne, ?_⟩
    intro msg out hok
    rw [hr] at hok
    simp only [Except.ok.injEq, Prod.mk.injEq] at hok
    constructor
    · intro _
      exact Or.inl h1
    · intro _
      rw [← hok.1]
      decide
  · refine ⟨fun hemp => absurd hemp h1, fun _ _ => ?_, ?_⟩
    · exact ⟨"Warning: Couldn't find face after resetting the angle. Returning original image",
        by decide, hr⟩
    · intro msg out hok
      rw [hr] at hok
      simp only [Except.ok.injEq, Prod.mk.injEq] at hok
      constructor
      · intro _
        exact Or.inr h2
      · intro _
        rw [← hok.1]
        decide
  · refine ⟨fun hemp => absurd hemp h1, fun _ hemp2 => absurd hemp2 h2, ?_⟩
    intro msg out hok
    rw [hr] at hok
    rcases hcrop : crop_face_from_img (rotatedImg cv predict_on_image img)
        (secondBatch cv predict_on_image img)[i] m (1, 1) with e | c
    · rw [hcrop] at hok
      simp at hok
    · rw [hcrop] at hok
      simp only [Except.ok.injEq, Prod.mk.injEq] at hok
      constructor
      · intro hne
        exact absurd hok.1.symm hne
      · intro hor
        rcases hor with hcontra | hcontra
        · exact absurd hcontra h1
        · exact absurd hcontra h2

/-- Witness for C2 with a detector stub that always returns the empty batch:
`run` hands back the no-face warning and the input image unchanged. -/
theorem run_warning_behaviour_witness :
    PhaseOne.run ⟨fun _ _ _ _ _ => 0, fun _ _ _ _ _ _ _ => 0⟩ (fun _ => [])
      ⟨.int 1, .int 2, .int 3, .int 4⟩ ⟨1, 1, 1, fun _ _ _ => 0⟩ =
      .ok ("Warning: No face detected. Returning original image",
        ⟨1, 1, 1, fun _ _ _ => 0⟩) :=
  (run_warning_behaviour ⟨fun _ _ _ _ _ => 0, fun _ _ _ _ _ _ _ => 0⟩ (fun _ => [])
    ⟨.int 1, .int 2, .int 3, .int 4⟩ ⟨1, 1, 1, fun _ _ _ => 0⟩).1 rfl

/-- Claim C3: with any margin configuration that is valid on all four sides and
any detector stub returning at least one detection at both checkpoints, `run`
returns the empty status together with the slice of the rotated image at
exactly the box obtained by taking a maximal-area second-pass detection,
converting its normalized box to pixel coordinates against the rotated
image's dimensions, and running it through margin expansion, ratio
correction and clamping (`recalculate_coordinates`) with the ratio `(1, 1)`
that `run` passes. -/
theorem run_success_crops_largest (cv : CV2) (predict_on_image : Image → List Detection)
    (m : Margin) (img : Image) (hm : validMargin m = true)
    (h1 : firstBatch cv predict_on_image img ≠ [])
    (h2 : secondBatch cv predict_on_image img ≠ []) :
    ∃ i, ∃ hi : i < (secondBatch cv predict_on_image img).length,
      get_idx_of_biggest_face (secondBatch cv predict_on_image img) = .ok i ∧
      (∀ j (hj : j < (secondBatch cv predict_on_image img).length),
        area (secondBatch cv predict_on_image img)[j] ≤
          area (secondBatch cv predict_on_image img)[i]) ∧
      ∃ a b c d,
        Margin.recalculate_coordinates m
          (pyint ((secondBatch cv predict_on_image img)[i].ymin *
            ((rotatedImg cv predict_on_image img).height : ℚ)))
          (pyint ((secondBatch cv predict_on_image img)[i].xmin *
            ((rotatedImg cv predict_on_image img).width : ℚ)))
          (pyint ((secondBatch cv predict_on_image img)[i].ymax *
            ((rotatedImg cv predict_on_image img).height : ℚ)))
          (pyint ((secondBatch cv predict_on_image img)[i].xmax *
            ((rotatedImg cv predict_on_image img).width : ℚ)))
          ((rotatedImg cv predict_on_image img).height : Int)
          ((rotatedImg cv predict_on_image img).width : Int) (1, 1) = .ok (a, b, c, d) ∧
        PhaseOne.run cv predict_on_image m img =
          .ok ("", npSlice (rotatedImg cv predict_on_image img) a b c d) := by
  rcases run_cases cv predict_on_image m img with ⟨hemp, -⟩ | ⟨-, hemp, -⟩ |
    ⟨-, -, i, hi, hsel, hmax, hr⟩
  · exact absurd hemp h1
  · exact absurd hemp h2
  · refine ⟨i, hi, hsel, hmax, ?_⟩
    obtain ⟨box, hbox⟩ := recalc_ok_of_valid m hm
      (pyint ((secondBatch cv predict_on_image img)[i].ymin *
        ((rotatedImg cv predict_on_image img).height : ℚ)))
      (pyint ((secondBatch cv predict_on_image img)[i].xmin *
        ((rotatedImg cv predict_on_image img).width : ℚ)))
      (pyint ((secondBatch cv predict_on_image img)[i].ymax *
        ((rotatedImg cv predict_on_image img).height : ℚ)))
      (pyint ((secondBatch cv predict_on_image img)[i].xmax *
        ((rotatedImg cv predict_on_image img).width : ℚ)))
      ((rotatedImg cv predict_on_image img).height : Int)
      ((rotatedImg cv predict_on_image img).width : Int) (1, 1)
    rcases box with ⟨a, b, c, d⟩
    refine ⟨a, b, c, d, hbox, ?_⟩
    rw [hr]
    have hcrop : crop_face_from_img (rotatedImg cv predict_on_image img)
        (secondBatch cv predict_on_image img)[i] m (1, 1) =
        .ok (npSlice (rotatedImg cv predict_on_image img) a b c d) := by
      simp only [crop_face_from_img, hbox]
    rw [hcrop]

/-- Witness for C3 with a detector stub returning one fixed detection on
every call, an all-absolute margin configuration and a 1 × 1 input image. -/
theorem run_success_crops_largest_witness :
    ∃ i, ∃ hi : i < (secondBatch ⟨fun _ _ _ _ _ => 0, fun _ _ _ _ _ _ _ => 0⟩
        (fun _ => [⟨0, 0, 1, 1, 0, 0, 0, 0⟩]) ⟨1, 1, 1, fun _ _ _ => 0⟩).length,
      get_idx_of_biggest_face (secondBatch ⟨fun _ _ _ _ _ => 0, fun _ _ _ _ _ _ _ => 0⟩
        (fun _ => [⟨0, 0, 1, 1, 0, 0, 0, 0⟩]) ⟨1, 1, 1, fun _ _ _ => 0⟩) = .ok i ∧
      (∀ j (hj : j < (secondBatch ⟨fun _ _ _ _ _ => 0, fun _ _ _ _ _ _ _ => 0⟩
          (fun _ => [⟨0, 0, 1, 1, 0, 0, 0, 0⟩]) ⟨1, 1, 1, fun _ _ _ => 0⟩).length),
        area (secondBatch ⟨fun _ _ _ _ _ => 0, fun _ _ _ _ _ _ _ => 0⟩
          (fun _ => [⟨0, 0, 1, 1, 0, 0, 0, 0⟩]) ⟨1, 1, 1, fun _ _ _ => 0⟩)[j] ≤
        area (secondBatch ⟨fun _ _ _ _ _ => 0, fun _ _ _ _ _ _ _ => 0⟩
          (fun _ => [⟨0, 0, 1, 1, 0, 0, 0, 0⟩]) ⟨1, 1, 1, fun _ _ _ => 0⟩)[i]) ∧
      ∃ a b c d,
        Margin.recalculate_coordinates ⟨.int 1, .int 2, .int 3, .int 4⟩
          (pyint ((secondBatch ⟨fun _ _ _ _ _ => 0, fun _ _ _ _ _ _ _ => 0⟩
            (fun _ => [⟨0, 0, 1, 1, 0, 0, 0, 0⟩]) ⟨1, 1, 1, fun _ _ _ => 0⟩)[i].ymin *
            ((rotatedImg ⟨fun _ _ _ _ _ => 0, fun _ _ _ _ _ _ _ => 0⟩
              (fun _ => [⟨0, 0, 1, 1, 0, 0, 0, 0⟩]) ⟨1, 1, 1, fun _ _ _ => 0⟩).height : ℚ)))
          (pyint ((secondBatch ⟨fun _ _ _ _ _ => 0, fun _ _ _ _ _ _ _ => 0⟩
            (fun _ => [⟨0, 0, 1, 1, 0, 0, 0, 0⟩]) ⟨1, 1, 1, fun _ _ _ => 0⟩)[i].xmin *
            ((rotatedImg ⟨fun _ _ _ _ _ => 0, fun _ _ _ _ _ _ _ => 0⟩
              (fun _ => [⟨0, 0, 1, 1, 0, 0, 0, 0⟩]) ⟨1, 1, 1, fun _ _ _ => 0⟩).width : ℚ)))
          (pyint ((secondBatch ⟨fun _ _ _ _ _ => 0, fun _ _ _ _ _ _ _ => 0⟩
            (fun _ => [⟨0, 0, 1, 1, 0, 0, 0, 0⟩]) ⟨1, 1, 1, fun _ _ _ => 0⟩)[i].ymax *
            ((rotatedImg ⟨fun _ _ _ _ _ => 0, fun _ _ _ _ _ _ _ => 0⟩
              (fun _ => [⟨0, 0, 1, 1, 0, 0, 0, 0⟩]) ⟨1, 1, 1, fun _ _ _ => 0⟩).height : ℚ)))
          (pyint ((secondBatch ⟨fun _ _ _ _ _ => 0, fun _ _ _ _ _ _ _ => 0⟩
            (fun _ => [⟨0, 0, 1, 1, 0, 0, 0, 0⟩]) ⟨1, 1, 1, fun _ _ _ => 0⟩)[i].xmax *
            ((rotatedImg ⟨fun _ _ _ _ _ => 0, fun _ _ _ _ _ _ _ => 0⟩
              (fun _ => [⟨0, 0, 1, 1, 0, 0, 0, 0⟩]) ⟨1, 1, 1, fun _ _ _ => 0⟩).width : ℚ)))
          ((rotatedImg ⟨fun _ _ _ _ _ => 0, fun _ _ _ _ _ _ _ => 0⟩
            (fun _ => [⟨0, 0, 1, 1, 0, 0, 0, 0⟩]) ⟨1, 1, 1, fun _ _ _ => 0⟩).height : Int)
          ((rotatedImg ⟨fun _ _ _ _ _ => 0, fun _ _ _ _ _ _ _ => 0⟩
            (fun _ => [⟨0, 0, 1, 1, 0, 0, 0, 0⟩]) ⟨1, 1, 1, fun _ _ _ => 0⟩).width : Int)
          (1, 1) = .ok (a, b, c, d) ∧
        PhaseOne.run ⟨fun _ _ _ _ _ => 0, fun _ _ _ _ _ _ _ => 0⟩
          (fun _ => [⟨0, 0, 1, 1, 0, 0, 0, 0⟩]) ⟨.int 1, .int 2, .int 3, .int 4⟩
          ⟨1, 1, 1, fun _ _ _ => 0⟩ =
          .ok ("", npSlice (rotatedImg ⟨fun _ _ _ _ _ => 0, fun _ _ _ _ _ _ _ => 0⟩
            (fun _ => [⟨0, 0, 1, 1, 0, 0, 0, 0⟩]) ⟨1, 1, 1, fun _ _ _ => 0⟩) a b c d) :=
  run_success_crops_largest ⟨fun _ _ _ _ _ => 0, fun _ _ _ _ _ _ _ => 0⟩
    (fun _ => [⟨0, 0, 1, 1, 0, 0, 0, 0⟩]) ⟨.int 1, .int 2, .int 3, .int 4⟩
    ⟨1, 1, 1, fun _ _ _ => 0⟩ (by decide) (by decide) (by decide)
